import Mathlib

/-!
# Verification of the Dhan auto-place trading tool (`app.py`)

A shallow embedding of the pure logic of `src/app.py`:

* JSON values returned by the broker API are modelled by `JValue`;
  Python objects (`dict`) are association lists in insertion order
  (the `json` module collapses duplicate keys, so keys are distinct).
* Python `float` prices are modelled by `ℚ` (the trigger logic only
  uses the order on finite floats, which rationals represent exactly).
* Pandas dataframes are modelled by `RawFrame` (column names plus rows
  of cells, `none` standing for a missing value / NaN).
* The monitoring loop `monitor_flow` is modelled as a function over an
  abstract stream of quote responses; wall-clock time advances by the
  poll-interval sleeps (network calls are treated as instantaneous).
-/

/-- A JSON value, as produced by `resp.json()` in `get_quote`.
`obj` models a Python `dict` in insertion order with distinct keys;
`null` doubles as Python `None`. -/
inductive JValue : Type where
  | null : JValue
  | bool : Bool → JValue
  | num : ℚ → JValue
  | str : String → JValue
  | arr : List JValue → JValue
  | obj : List (String × JValue) → JValue

/-- Python truthiness (`if x:`) of a JSON-decoded value: `None`, `False`,
`0`, `""`, `[]` and `{}` are falsy, everything else is truthy. -/
def truthy : JValue → Bool
  | .null => false
  | .bool b => b
  | .num q => q != 0
  | .str s => s != ""
  | .arr xs => !xs.isEmpty
  | .obj fs => !fs.isEmpty

/-- `d.get(k)`: look up a key in a Python dict (keys are distinct, so the
first hit is the only hit). -/
def jGet (fs : List (String × JValue)) (k : String) : Option JValue :=
  (fs.find? (fun p => p.1 == k)).map (·.2)

/-- The `for k, v in quote_json.items():` loop at the end of
`extract_last_price_from_quote` (src/app.py:91-96): return the alias value
of the first dict-valued entry that has a `'lastPrice'` or `'last'` key. -/
def scanItems : List (String × JValue) → JValue
  | [] => .null
  | (_, v) :: rest =>
    match v with
    | .obj vfs =>
      match jGet vfs "lastPrice" with
      | some x => x
      | none =>
        match jGet vfs "last" with
        | some x => x
        | none => scanItems rest
    | _ => scanItems rest

/-- `extract_last_price_from_quote` (src/app.py:77-100).  The Python
function returns a Python object or `None`; since JSON `null` decodes to
`None` as well, the absent case is represented by `.null`. -/
def extract_last_price_from_quote (quote_json : JValue) : JValue :=
  if !truthy quote_json then .null
  else
    match quote_json with
    | .obj fs =>
      -- data = quote_json.get('data') or quote_json
      let data : JValue :=
        match jGet fs "data" with
        | some v => if truthy v then v else .obj fs
        | none => .obj fs
      match data with
      | .obj dfs =>
        match jGet dfs "lastPrice" with
        | some v => v
        | none =>
          match jGet dfs "last" with
          | some v => v
          | none => scanItems fs
      | _ => scanItems fs
    | _ => .null

/-- Python `s.strip()`: drop whitespace from both ends.  (List-based so
that it evaluates by kernel reduction.) -/
def pyStrip (s : String) : String :=
  ⟨((s.data.dropWhile Char.isWhitespace).reverse.dropWhile Char.isWhitespace).reverse⟩

/-- Python `s.lower()` on the ASCII range (the CSV symbols and queries the
claims quantify over; full Unicode case-mapping is outside the model). -/
def pyLower (s : String) : String :=
  ⟨s.data.map Char.toLower⟩

/-- Value of a list of decimal digit characters (most significant first),
`none` if some character is not a digit or the list is empty. -/
def digitsVal (cs : List Char) : Option ℕ :=
  match cs with
  | [] => none
  | _ =>
    cs.foldl
      (fun acc c =>
        acc.bind (fun n => if c.isDigit then some (n * 10 + (c.toNat - 48)) else none))
      (some 0)

/-- Split a character list at the first `'.'`. -/
def splitDot : List Char → List Char × Option (List Char)
  | [] => ([], none)
  | c :: r =>
    if c == '.' then ([], some r)
    else
      let p := splitDot r
      (c :: p.1, p.2)

/-- Model of Python `float(s)` on strings: optional surrounding blanks,
optional sign, decimal digits with at most one `'.'` and at least one
digit.  (Exponent, infinity, NaN and underscore forms of CPython's parser
are outside the model; no claim depends on them.) -/
def pyFloatOfString (s : String) : Option ℚ :=
  let cs := (pyStrip s).data
  let signPart : ℚ × List Char :=
    match cs with
    | c :: r => if c == '-' then (-1, r) else if c == '+' then (1, r) else (1, c :: r)
    | [] => (1, [])
  let ip := splitDot signPart.2
  match ip.2 with
  | none =>
    match digitsVal ip.1 with
    | some n => some (signPart.1 * n)
    | none => none
  | some fr =>
    match ip.1, fr with
    | [], [] => none
    | [], _ =>
      match digitsVal fr with
      | some f => some (signPart.1 * ((f : ℚ) / (10 : ℚ) ^ fr.length))
      | none => none
    | _, [] =>
      match digitsVal ip.1 with
      | some n => some (signPart.1 * n)
      | none => none
    | _, _ =>
      match digitsVal ip.1, digitsVal fr with
      | some n, some f => some (signPart.1 * ((n : ℚ) + (f : ℚ) / (10 : ℚ) ^ fr.length))
      | _, _ => none

/-- Model of Python `float(last)` in `monitor_flow` (src/app.py:249-254):
numbers and booleans convert, strings are parsed, everything else raises
(modelled as `none`, which the caller turns into the retry path). -/
def pyFloat : JValue → Option ℚ
  | .num q => some q
  | .bool b => some (if b then 1 else 0)
  | .str s => pyFloatOfString s
  | _ => none

/-- Order side, the value of `triggered_side` in `monitor_flow`. -/
inductive Side : Type where
  | BUY : Side
  | SELL : Side
deriving DecidableEq, Repr

/-- Order type selected in the UI (src/app.py:203). -/
inductive OrderType : Type where
  | MARKET : OrderType
  | LIMIT : OrderType
deriving DecidableEq, Repr

/-- The trigger rule of `monitor_flow` (src/app.py:258-262): two explicit
comparisons in fixed order, `last_f >= entry` first. -/
def triggered_side (last_f entry_price : ℚ) : Option Side :=
  if last_f ≥ entry_price then some .SELL
  else if last_f ≤ entry_price then some .BUY
  else none

/-- A normalized instrument row, as produced by `download_instruments`
(src/app.py:24-51): the three added columns.  `none` is a NaN cell. -/
structure Instrument : Type where
  tradingsymbol_norm : Option String
  securityId_norm : Option String
  tradingsymbol_norm_lc : Option String
deriving DecidableEq, Repr

/-- `p == '.' || p == c`: one pattern character of a regular expression
whose only metacharacter is `'.'` (see `str_contains`). -/
def charMatches (p c : Char) : Bool :=
  p == '.' || p == c

/-- Does the pattern match a prefix of the text (`re` semantics for
patterns built from literals and `'.'`)? -/
def regexMatchHere : List Char → List Char → Bool
  | [], _ => true
  | _ :: _, [] => false
  | p :: ps, c :: cs => charMatches p c && regexMatchHere ps cs

/-- Does the pattern match anywhere in the text (`re.search`)? -/
def regexSearch (ps : List Char) : List Char → Bool
  | [] => regexMatchHere ps []
  | c :: cs => regexMatchHere ps (c :: cs) || regexSearch ps cs

/-- Model of `pandas.Series.str.contains(q)` on one cell: with its default
`regex=True` the query is a regular-expression pattern searched in the
symbol (src/app.py:62).  The model covers patterns whose only
metacharacter is `'.'`; other metacharacters are treated as literals, and
no claim is settled outside the modelled fragment. -/
def str_contains (s pat : String) : Bool :=
  regexSearch pat.data s.data

/-- `find_instrument` (src/app.py:53-65): normalize the query, reject the
empty query, then first exact match on the lowercased symbol column, then
first `str.contains` match (`na=False`, so NaN symbols never match). -/
def find_instrument (df : List Instrument) (query : String) : Option Instrument :=
  let q := pyLower (pyStrip query)
  if q = "" then none
  else
    match df.find? (fun r => r.tradingsymbol_norm_lc == some q) with
    | some r => some r
    | none =>
      df.find? (fun r =>
        match r.tradingsymbol_norm_lc with
        | some s => str_contains s q
        | none => false)

/-- The instrument CSV after `pd.read_csv(..., dtype=str)`: column names
in order, and rows of cells (`none` = NaN).  `read_csv` renames duplicate
column headers, so the names in `cols` are distinct. -/
structure RawFrame : Type where
  cols : List String
  rows : List (List (Option String))
deriving DecidableEq, Repr

/-- `cols = {c.lower(): c for c in df.columns}` followed by `cols[k]`
(src/app.py:31): a later column with the same lowercase name overwrites an
earlier one, hence the lookup scans from the right. -/
def colKey (cols : List String) (k : String) : Option String :=
  cols.reverse.find? (fun c => pyLower c == k)

/-- The cell of a row under an original column name. -/
def cellAt (cols : List String) (row : List (Option String)) (c : String) : Option String :=
  ((cols.findIdx? (· == c)).bind (fun i => row.get? i)).join

/-- `str(x)` applied to a cell by `.astype(str)`: NaN renders as `"nan"`. -/
def pyStrCell : Option String → String
  | some s => s
  | none => "nan"

/-- The candidate identifier-column aliases of src/app.py:42, in order. -/
def secCandidates : List String :=
  ["secid", "securityid", "token", "instrument_token", "security_id",
   "instrumentid", "instrument_id"]

/-- The `for candidate in [...]` loop of src/app.py:42-45: the first
alias that is a (lowercased) column name. -/
def secColOf (cols : List String) : Option String :=
  secCandidates.findSome? (colKey cols)

/-- Normalization of one row by `download_instruments` (src/app.py:31-50):
pick the symbol column (`tradingsymbol`, else `symbol`, else the first
column through `astype(str)`), the identifier column (first alias hit,
through `astype(str)`; absent otherwise), and lowercase the symbol. -/
def normRow (cols : List String) (row : List (Option String)) : Instrument :=
  let sym : Option String :=
    match colKey cols "tradingsymbol" with
    | some c => cellAt cols row c
    | none =>
      match colKey cols "symbol" with
      | some c => cellAt cols row c
      | none => some (pyStrCell ((row.get? 0).join))
  let sec : Option String :=
    match secColOf cols with
    | some c => some (pyStrCell (cellAt cols row c))
    | none => none
  { tradingsymbol_norm := sym
    securityId_norm := sec
    tradingsymbol_norm_lc := sym.map pyLower }

/-- `download_instruments` (src/app.py:24-51), starting from the parsed
CSV (the HTTP fetch and CSV decoding are outside the model). -/
def download_instruments (f : RawFrame) : List Instrument :=
  f.rows.map (normRow f.cols)

/-- `ist_now` / `next_market_open_utc` time model: an IST instant as whole
seconds since an epoch midnight (IST has no daylight-saving shifts, and
`replace(second=0, microsecond=0)` makes sub-second precision irrelevant
to the computed open instant). -/
def secondsPerDay : ℕ := 86400

/-- 09:15:00 as seconds past midnight. -/
def marketOpenOfDay : ℕ := 9 * 3600 + 15 * 60

/-- The IST offset of `Asia/Kolkata`, +05:30, in seconds. -/
def istOffset : ℕ := 5 * 3600 + 30 * 60

/-- `next_market_open_utc` (src/app.py:135-146) before the final UTC
conversion: today's 09:15 IST, or tomorrow's if now is at or past it. -/
def next_market_open_ist (now_ist : ℕ) : ℕ :=
  let today_open_ist := now_ist / secondsPerDay * secondsPerDay + marketOpenOfDay
  if today_open_ist ≤ now_ist then
    (now_ist + secondsPerDay) / secondsPerDay * secondsPerDay + marketOpenOfDay
  else today_open_ist

/-- `next_market_open_utc` (src/app.py:135-146): the open instant
converted to UTC (IST minus 5:30). -/
def next_market_open_utc (now_ist : ℕ) : ℤ :=
  (next_market_open_ist now_ist : ℤ) - istOffset

/-- The arguments the start button hands to `monitor_flow`
(src/app.py:313-316): the resolved symbol and identifier plus the order
inputs.  `poll_interval` comes from a `number_input` with `min_value=1`.
The `float(...)` coercions of src/app.py already happened (`ℚ` fields). -/
structure MonitorConfig : Type where
  symbol : Option String
  sec_id : Option String
  entry_price : ℚ
  order_type : OrderType
  qty : ℕ
  sl_pct : ℚ
  tgt_pct : ℚ
  poll_interval : ℕ

/-- `str(x)` applied to `sec_id` in the order payload (src/app.py:270):
Python renders the absent identifier `None` as the string `"None"`. -/
def pyStrOfOpt : Option String → String
  | some s => s
  | none => "None"

/-- The order payload built on trigger (src/app.py:267-281).  The `price`
key is merged in only for LIMIT orders, which `Option` models. -/
structure OrderPayload : Type where
  exchangeSegment : String
  symbol : Option String
  securityId : String
  transactionType : Side
  quantity : ℕ
  orderType : OrderType
  productCode : String
  validity : String
  price : Option ℚ
  stopLossPercent : ℚ
  targetPercent : ℚ
deriving DecidableEq, Repr

/-- The payload dict literal of src/app.py:267-281. -/
def mkPayload (cfg : MonitorConfig) (side : Side) : OrderPayload :=
  { exchangeSegment := "NSE"
    symbol := cfg.symbol
    securityId := pyStrOfOpt cfg.sec_id
    transactionType := side
    quantity := cfg.qty
    orderType := cfg.order_type
    productCode := "INTRADAY"
    validity := "DAY"
    price := if cfg.order_type = .LIMIT then some cfg.entry_price else none
    stopLossPercent := cfg.sl_pct
    targetPercent := cfg.tgt_pct }

/-- The start handler's wiring of a resolved instrument into the monitor
arguments: `sec_id = found.get('securityId_norm')`,
`sym = found.get('tradingsymbol_norm')` (src/app.py:310-314). -/
def startConfig (found : Instrument) (entry_price : ℚ) (order_type : OrderType)
    (qty : ℕ) (sl_pct tgt_pct : ℚ) (poll_interval : ℕ) : MonitorConfig :=
  { symbol := found.tradingsymbol_norm
    sec_id := found.securityId_norm
    entry_price := entry_price
    order_type := order_type
    qty := qty
    sl_pct := sl_pct
    tgt_pct := tgt_pct
    poll_interval := poll_interval }

/-- One `append_log` line of the polling loop, abstracted to its shape
(the timestamp prefix and string formatting carry no logic). -/
inductive LogEvent : Type where
  | quoteFetchError (reason : JValue) : LogEvent
  | noLastPrice : LogEvent
  | nonNumericLast : LogEvent
  | tick (p : ℚ) : LogEvent
  | entryTouched (side : Side) : LogEvent
  | placeOrderResp : LogEvent
  | stoppedAfterPlacing (side : Side) : LogEvent
  | monitoringEnded : LogEvent

/-- What one loop iteration decides to do with one quote response. -/
inductive StepResult : Type where
  | retry (ev : LogEvent) : StepResult
  | trigger (side : Side) (p : ℚ) : StepResult
  | tickNoTrigger (p : ℚ) : StepResult

/-- `isinstance(q, dict) and q.get("error")` (src/app.py:240): the error
value when it is present and truthy. -/
def quoteError : JValue → Option JValue
  | .obj fs =>
    match jGet fs "error" with
    | some v => if truthy v then some v else none
    | none => none
  | _ => none

/-- The body of one polling iteration of `monitor_flow`
(src/app.py:239-262) up to the decision: error check, price extraction,
`float` conversion, trigger rule.  `toFloat` abstracts Python's `float`
on extracted values (instantiated with `pyFloat` below). -/
def stepOf (toFloat : JValue → Option ℚ) (entry_price : ℚ) (q : JValue) : StepResult :=
  match quoteError q with
  | some err => .retry (.quoteFetchError err)
  | none =>
    match extract_last_price_from_quote q with
    | .null => .retry .noLastPrice
    | last =>
      match toFloat last with
      | none => .retry .nonNumericLast
      | some last_f =>
        match triggered_side last_f entry_price with
        | some side => .trigger side last_f
        | none => .tickNoTrigger last_f

/-- Terminal state of a monitor run (spec 4.3). -/
inductive Terminal : Type where
  | SUBMITTED : Terminal
  | TIMED_OUT : Terminal
deriving DecidableEq, Repr

/-- Observable outcome of a monitor run: terminal state, the log lines in
order, the orders given to `place_order`, the index after the last quote
fetched, and the wall-clock seconds elapsed at exit. -/
structure RunResult : Type where
  terminal : Terminal
  logs : List LogEvent
  submissions : List OrderPayload
  nextIndex : ℕ
  finalElapsed : ℕ

/-- `timeout_seconds = 6 * 3600` (src/app.py:235). -/
def timeout_seconds : ℕ := 6 * 3600

/-- The polling loop of `monitor_flow` (src/app.py:238-292).  `quotes i`
is the response of the `i`-th `get_quote` call; `e` is elapsed wall-clock
time, advanced by each `time.sleep(poll_interval)`.  `fuel` only bounds
recursion: started at `timeout_seconds` it never runs out before the time
guard fails, because every iteration sleeps at least one second
(`poll_interval ≥ 1` from the UI); `monitorGo_fuel_succ` makes this
exact, and for safety the `fuel = 0` case returns the same timed-out
result as the guard. -/
def monitorGo (toFloat : JValue → Option ℚ) (cfg : MonitorConfig)
    (quotes : ℕ → JValue) :
    ℕ → ℕ → ℕ → List LogEvent → List OrderPayload → RunResult
  | 0, i, e, logs, subs =>
    ⟨.TIMED_OUT, logs ++ [.monitoringEnded], subs, i, e⟩
  | fuel + 1, i, e, logs, subs =>
    if e < timeout_seconds then
      match stepOf toFloat cfg.entry_price (quotes i) with
      | .retry ev =>
        monitorGo toFloat cfg quotes fuel (i + 1) (e + cfg.poll_interval)
          (logs ++ [ev]) subs
      | .trigger side p =>
        ⟨.SUBMITTED,
         logs ++ [.tick p, .entryTouched side, .placeOrderResp,
                  .stoppedAfterPlacing side],
         subs ++ [mkPayload cfg side], i + 1, e⟩
      | .tickNoTrigger p =>
        monitorGo toFloat cfg quotes fuel (i + 1) (e + cfg.poll_interval)
          (logs ++ [.tick p]) subs
    else ⟨.TIMED_OUT, logs ++ [.monitoringEnded], subs, i, e⟩

/-- `monitor_flow` from entry to the MONITORING phase (src/app.py:234-292):
`start = time.time()` and the loop, starting at elapsed time 0. -/
def monitor_flow (toFloat : JValue → Option ℚ) (cfg : MonitorConfig)
    (quotes : ℕ → JValue) : RunResult :=
  monitorGo toFloat cfg quotes timeout_seconds 0 0 [] []

/-- The `'lastPrice'`-then-`'last'` alias cascade on one dict. -/
def aliasIn (fs : List (String × JValue)) : Option JValue :=
  match jGet fs "lastPrice" with
  | some v => some v
  | none => jGet fs "last"

/-- The fields of a dict value (empty for non-dicts). -/
def objFieldsOf : JValue → List (String × JValue)
  | .obj fs => fs
  | _ => []

/-- Is this value a dict carrying one of the alias keys? -/
def isAliasDict (v : JValue) : Bool :=
  match v with
  | .obj vfs => (aliasIn vfs).isSome
  | _ => false

/-- The corrected contract of `extract_last_price_from_quote`, written
from the amended claim: on a truthy dict, consult (1) the `'data'` entry
when it is truthy — if it is a dict take its alias value, a truthy
non-dict `'data'` skips the top level entirely; (2) when `'data'` is
absent or falsy, the top-level alias keys; (3) failing both, the first
dict-valued top-level entry holding an alias; otherwise, and on every
non-dict or falsy input, the result is absent (`null`).  It never raises:
`extract_eq_extractSpec` shows the implementation is this total
function. -/
def extractSpec (j : JValue) : JValue :=
  match j with
  | .obj fs =>
    if fs.isEmpty then .null
    else
      let primary : Option JValue :=
        match jGet fs "data" with
        | some d =>
          if truthy d then
            match d with
            | .obj dfs => aliasIn dfs
            | _ => none
          else aliasIn fs
        | none => aliasIn fs
      match primary with
      | some v => v
      | none =>
        match fs.find? (fun p => isAliasDict p.2) with
        | some p => (aliasIn (objFieldsOf p.2)).getD .null
        | none => .null
  | _ => .null

/-- Does this step take the log-sleep-continue path? -/
def isRetry : StepResult → Bool
  | .retry _ => true
  | _ => false

/-- Concrete monitor configuration for the C2 witness run. -/
def cfgC2 : MonitorConfig :=
  { symbol := some "RELIANCE", sec_id := some "2885", entry_price := 100,
    order_type := .MARKET, qty := 1, sl_pct := 1, tgt_pct := 2,
    poll_interval := 2 }

/-- C2 witness quote stream: every poll returns 101 ≥ 100. -/
def quotesC2 : ℕ → JValue := fun _ => .obj [("lastPrice", .num 101)]

/-- Concrete monitor configuration for the C3 witness run (one sleep of
the poll interval crosses the whole budget, keeping evaluation small). -/
def cfgC3 : MonitorConfig :=
  { symbol := some "RELIANCE", sec_id := some "2885", entry_price := 100,
    order_type := .MARKET, qty := 1, sl_pct := 1, tgt_pct := 2,
    poll_interval := 21600 }

/-- C3 witness quote stream: every poll fails (a `null` body has no
price). -/
def quotesC3 : ℕ → JValue := fun _ => JValue.null

/-- Concrete LIMIT-order configuration for the C7 witness run. -/
def cfgC7 : MonitorConfig :=
  { symbol := some "TCS", sec_id := some "11536", entry_price := 50,
    order_type := .LIMIT, qty := 3, sl_pct := 1, tgt_pct := 2,
    poll_interval := 2 }

/-- C7 witness quote stream: the price sits under the `'data'` wrapper
with the `'last'` alias. -/
def quotesC7 : ℕ → JValue := fun _ => .obj [("data", .obj [("last", .num 50)])]

/-- Concrete configuration for the C9 scenario: entry 100.00, three polls
fit inside the budget. -/
def cfgC9 : MonitorConfig :=
  { symbol := some "RELIANCE", sec_id := some "2885", entry_price := 100,
    order_type := .MARKET, qty := 1, sl_pct := 1, tgt_pct := 2,
    poll_interval := 7200 }

/-- C9 scenario quote stream: two fetch failures, then price 100.00. -/
def quotesC9 : ℕ → JValue := fun j =>
  if j < 2 then .obj [("error", .str "boom")] else .obj [("lastPrice", .num 100)]

/-- One-row instrument table for the C4 witness. -/
def instC4 : Instrument :=
  ⟨some "ABC", some "1", some "abc"⟩

/-- C4 witness dataset. -/
def dfC4 : List Instrument := [instC4]

/-- One-row instrument table for the C5 theorem witness. -/
def instC5w : Instrument :=
  ⟨some "AXYZB", some "2", some "axyzb"⟩

/-- C5 witness dataset. -/
def dfC5w : List Instrument := [instC5w]

/-- The instrument row of the C5 counterexample: symbol `abc`. -/
def instC5 : Instrument :=
  ⟨some "ABC", some "3", some "abc"⟩

/-- C5 counterexample dataset. -/
def dfC5 : List Instrument := [instC5]

/-- C8 instrument CSV: a symbol column and no identifier-alias column. -/
def frameC8 : RawFrame :=
  ⟨["tradingsymbol"], [[some "RELIANCE"]]⟩

/-- The single normalized row of `frameC8`. -/
def instC8 : Instrument :=
  ⟨some "RELIANCE", none, some "reliance"⟩

/-! ## Helper lemmas -/

/-- `find?` only looks at the predicate's values on the list. -/
theorem find?_congr_on {α : Type} {p q : α → Bool} :
    ∀ l : List α, (∀ x ∈ l, p x = q x) → l.find? p = l.find? q := by
  intro l
  induction l with
  | nil => intro _; rfl
  | cons a l ih =>
    intro h
    have ha := h a (List.mem_cons_self a l)
    simp only [List.find?]
    rw [ha]
    cases q a with
    | true => rfl
    | false => exact ih fun x hx => h x (List.mem_cons_of_mem a hx)

/-- On a pattern free of the `'.'` metacharacter, anchored regex matching
is list-prefix matching. -/
theorem regexMatchHere_literal {ps : List Char} (h : ∀ c ∈ ps, (c == '.') = false) :
    ∀ cs, regexMatchHere ps cs = true ↔ ps <+: cs := by
  induction ps with
  | nil => intro cs; simp [regexMatchHere]
  | cons p ps ih =>
    intro cs
    cases cs with
    | nil => simp [regexMatchHere]
    | cons c cs =>
      have hp := h p (List.mem_cons_self p ps)
      have hrest : ∀ c ∈ ps, (c == '.') = false :=
        fun x hx => h x (List.mem_cons_of_mem p hx)
      simp only [regexMatchHere, charMatches, hp, Bool.false_or, Bool.and_eq_true,
        beq_iff_eq, List.cons_prefix_cons]
      exact and_congr Iff.rfl (ih hrest cs)

/-- On a pattern free of the `'.'` metacharacter, regex search is
substring (list-infix) search. -/
theorem regexSearch_literal {ps : List Char} (h : ∀ c ∈ ps, (c == '.') = false) :
    ∀ s, regexSearch ps s = true ↔ ps <:+: s := by
  intro s
  induction s with
  | nil =>
    simp only [regexSearch, regexMatchHere_literal h, List.prefix_nil, List.infix_nil]
  | cons c cs ih =>
    simp only [regexSearch, Bool.or_eq_true, regexMatchHere_literal h, ih,
      List.infix_cons_iff]

/-- The items loop of the extractor is the find?-based search of
`extractSpec`'s third stage. -/
theorem scanItems_eq_find? :
    ∀ fs : List (String × JValue),
      scanItems fs =
        (match fs.find? (fun p => isAliasDict p.2) with
         | some p => (aliasIn (objFieldsOf p.2)).getD .null
         | none => .null) := by
  intro fs
  induction fs with
  | nil => rfl
  | cons hd tl ih =>
    rcases hd with ⟨k, v⟩
    cases v with
    | obj vfs =>
      cases h1 : jGet vfs "lastPrice" with
      | some x =>
        have hda : isAliasDict (JValue.obj vfs) = true := by
          simp [isAliasDict, aliasIn, h1]
        simp [scanItems, List.find?, hda, aliasIn, h1, objFieldsOf]
      | none =>
        cases h2 : jGet vfs "last" with
        | some x =>
          have hda : isAliasDict (JValue.obj vfs) = true := by
            simp [isAliasDict, aliasIn, h1, h2]
          simp [scanItems, List.find?, hda, aliasIn, h1, h2, objFieldsOf]
        | none =>
          have hda : isAliasDict (JValue.obj vfs) = false := by
            simp [isAliasDict, aliasIn, h1, h2]
          simpa [scanItems, List.find?, hda, h1, h2] using ih
    | null => simpa [scanItems, List.find?, isAliasDict] using ih
    | bool b => simpa [scanItems, List.find?, isAliasDict] using ih
    | num q => simpa [scanItems, List.find?, isAliasDict] using ih
    | str s => simpa [scanItems, List.find?, isAliasDict] using ih
    | arr xs => simpa [scanItems, List.find?, isAliasDict] using ih

/-- C10 (amended): the quote-price extractor is a total function equal to
the staged search `extractSpec`: alias keys inside a truthy dict `'data'`
entry take precedence; the top-level alias keys are consulted only when
`'data'` is absent or falsy; then the first dict-valued entry holding an
alias; in every other case (including every non-dict input) the result is
absent, never an exception. -/
theorem extract_eq_extractSpec :
    ∀ j, extract_last_price_from_quote j = extractSpec j := by
  intro j
  cases j with
  | null => rfl
  | bool b => cases b <;> rfl
  | num q =>
    have ht : truthy (JValue.num q) = (q != 0) := rfl
    simp only [extract_last_price_from_quote, extractSpec, ht]
    cases h : (q != 0) <;> simp [h]
  | str s =>
    have ht : truthy (JValue.str s) = (s != "") := rfl
    simp only [extract_last_price_from_quote, extractSpec, ht]
    cases h : (s != "") <;> simp [h]
  | arr xs =>
    have ht : truthy (JValue.arr xs) = !xs.isEmpty := rfl
    simp only [extract_last_price_from_quote, extractSpec, ht]
    cases h : xs.isEmpty <;> simp [h]
  | obj fs =>
    have ht : truthy (JValue.obj fs) = !fs.isEmpty := rfl
    cases hfs : fs.isEmpty with
    | true => simp [extract_last_price_from_quote, extractSpec, ht, hfs]
    | false =>
      simp only [extract_last_price_from_quote, extractSpec, ht, hfs,
        Bool.not_false, Bool.not_true, if_false, if_true]
      cases hd : jGet fs "data" with
      | none =>
        cases h1 : jGet fs "lastPrice" with
        | some v => simp [aliasIn, h1]
        | none =>
          cases h2 : jGet fs "last" with
          | some v => simp [aliasIn, h1, h2]
          | none => simp [aliasIn, h1, h2, scanItems_eq_find?]
      | some d =>
        cases htd : truthy d with
        | false =>
          simp only [htd, Bool.false_eq_true, if_false]
          cases h1 : jGet fs "lastPrice" with
          | some v => simp [aliasIn, h1]
          | none =>
            cases h2 : jGet fs "last" with
            | some v => simp [aliasIn, h1, h2]
            | none => simp [aliasIn, h1, h2, scanItems_eq_find?]
        | true =>
          simp only [htd, if_true]
          cases d with
          | null => simp [truthy] at htd
          | bool b => simp [scanItems_eq_find?]
          | num q => simp [scanItems_eq_find?]
          | str s => simp [scanItems_eq_find?]
          | arr xs => simp [scanItems_eq_find?]
          | obj dfs =>
            cases h1 : jGet dfs "lastPrice" with
            | some v => simp [aliasIn, h1]
            | none =>
              cases h2 : jGet dfs "last" with
              | some v => simp [aliasIn, h1, h2]
              | none => simp [aliasIn, h1, h2, scanItems_eq_find?]

/-- C10 counterexample: with a truthy non-dict `'data'` entry present, an
alias key sitting at the top level is not returned — the extractor yields
the absent result instead, contradicting the claim that a top-level alias
value is returned. -/
theorem extract_top_level_alias_missed :
    extract_last_price_from_quote
        (.obj [("data", .bool true), ("lastPrice", .num 5)]) = .null
    ∧ jGet [("data", JValue.bool true), ("lastPrice", JValue.num 5)] "lastPrice"
        = some (.num 5)
    ∧ JValue.null ≠ JValue.num 5 :=
  ⟨rfl, rfl, fun h => JValue.noConfusion h⟩

/-- C1: the trigger rule checks `P ≥ E` first (SELL), then `P ≤ E` (BUY):
so every price at or above the entry triggers SELL — in particular the
exact tie `P = E` — and every price strictly below triggers BUY; the
two-branch rule never returns no side on rational inputs. -/
theorem triggered_side_rule :
    ∀ last_f entry_price : ℚ,
      triggered_side last_f entry_price =
        some (if entry_price ≤ last_f then Side.SELL else Side.BUY) := by
  intro p e
  unfold triggered_side
  by_cases h : e ≤ p
  · simp [ge_iff_le, h]
  · have h2 : p ≤ e := le_of_not_le h
    simp [ge_iff_le, h, h2]

/-- C6: the next market-open instant is today's 09:15 IST when the current
IST time is strictly before 09:15, and tomorrow's 09:15 IST when at or
past it; the rule is uniform in the day (no weekend or holiday
special-casing), and the returned UTC instant is the IST instant minus
the fixed +05:30 offset. -/
theorem next_market_open_rule :
    ∀ t : ℕ,
      (next_market_open_ist t =
        if t % secondsPerDay < marketOpenOfDay
        then t / secondsPerDay * secondsPerDay + marketOpenOfDay
        else (t / secondsPerDay + 1) * secondsPerDay + marketOpenOfDay)
      ∧ next_market_open_utc t = (next_market_open_ist t : ℤ) - istOffset := by
  intro t
  refine ⟨?_, rfl⟩
  simp only [next_market_open_ist, secondsPerDay, marketOpenOfDay]
  split_ifs <;> omega

/-- C4: the resolver returns "not found" on every query that normalizes
to the empty string, independently of the dataset; and on a non-empty
normalized query it returns the first instrument whose lowercased symbol
equals the normalized query whenever one exists. -/
theorem find_instrument_empty_and_exact :
    (∀ query, pyLower (pyStrip query) = "" → ∀ df, find_instrument df query = none)
    ∧ (∀ df query r, pyLower (pyStrip query) ≠ "" →
        df.find? (fun x => x.tradingsymbol_norm_lc == some (pyLower (pyStrip query)))
          = some r →
        find_instrument df query = some r) := by
  constructor
  · intro query hq df
    simp [find_instrument, hq]
  · intro df query r hq hfind
    simp only [find_instrument]
    rw [if_neg hq, hfind]

/-- Witness for C4 at a whitespace query and at a query with blanks and
upper case. -/
theorem find_instrument_empty_and_exact_witness :
    (pyLower (pyStrip "  ") = "" ∧ find_instrument dfC4 "  " = none)
    ∧ (pyLower (pyStrip " ABC") ≠ ""
       ∧ dfC4.find? (fun x => x.tradingsymbol_norm_lc == some (pyLower (pyStrip " ABC")))
           = some instC4
       ∧ find_instrument dfC4 " ABC" = some instC4) :=
  ⟨⟨rfl, find_instrument_empty_and_exact.1 "  " rfl dfC4⟩,
   ⟨by decide, rfl,
    find_instrument_empty_and_exact.2 dfC4 " ABC" instC4 (by decide) rfl⟩⟩

/-- C5 (amended): the containment fallback passes the query to pandas
`str.contains`, which treats it as a regular-expression pattern.  For
queries whose characters are all alphanumeric (no regex metacharacter)
this is exactly literal-substring search: with no exact match, the
resolver returns the first instrument whose lowercased symbol contains
the query as a list infix, and the non-exceptional `none` ("not found")
when no symbol does.  Queries with metacharacters are pattern-matched
instead, so they can select symbols that do not literally contain them. -/
theorem find_instrument_contains_literal_for_alnum :
    ∀ df query, pyLower (pyStrip query) ≠ "" →
      (∀ c ∈ (pyLower (pyStrip query)).data, c.isAlphanum = true) →
      df.find? (fun x => x.tradingsymbol_norm_lc == some (pyLower (pyStrip query)))
        = none →
      find_instrument df query =
        df.find? (fun x =>
          match x.tradingsymbol_norm_lc with
          | some s => decide ((pyLower (pyStrip query)).data <:+: s.data)
          | none => false) := by
  intro df query hq halnum hnone
  have hdot : ∀ c ∈ (pyLower (pyStrip query)).data, (c == '.') = false := by
    intro c hc
    have h1 := halnum c hc
    cases hbe : (c == '.') with
    | false => rfl
    | true =>
      exfalso
      have hcd : c = '.' := by simpa using hbe
      rw [hcd] at h1
      exact absurd h1 (by decide)
  simp only [find_instrument]
  rw [if_neg hq, hnone]
  apply find?_congr_on
  intro x _
  cases hs : x.tradingsymbol_norm_lc with
  | none => rfl
  | some s =>
    show str_contains s (pyLower (pyStrip query)) = _
    unfold str_contains
    have hiff := regexSearch_literal hdot s.data
    cases hsearch : regexSearch (pyLower (pyStrip query)).data s.data with
    | false =>
      have hni : ¬ ((pyLower (pyStrip query)).data <:+: s.data) := by
        rw [← hiff]
        simp [hsearch]
      simp [hni]
    | true =>
      have hin : (pyLower (pyStrip query)).data <:+: s.data := hiff.mp hsearch
      simp [hin]

/-- Witness for C5's amended theorem at the alphanumeric query `xyz`. -/
theorem find_instrument_contains_literal_witness :
    (pyLower (pyStrip "xyz") ≠ ""
     ∧ (∀ c ∈ (pyLower (pyStrip "xyz")).data, c.isAlphanum = true)
     ∧ dfC5w.find? (fun x => x.tradingsymbol_norm_lc == some (pyLower (pyStrip "xyz")))
         = none)
    ∧ find_instrument dfC5w "xyz" =
        dfC5w.find? (fun x =>
          match x.tradingsymbol_norm_lc with
          | some s => decide ((pyLower (pyStrip "xyz")).data <:+: s.data)
          | none => false) :=
  ⟨⟨by decide, by decide, rfl⟩,
   find_instrument_contains_literal_for_alnum dfC5w "xyz" (by decide) (by decide) rfl⟩

/-- C5 counterexample: the query `a.c` is not a literal substring of the
symbol `abc` — the claim as stated demands "not found" — yet the resolver
returns the instrument, because `'.'` is a regex wildcard under pandas
`str.contains`. -/
theorem find_instrument_regex_dot_counterexample :
    find_instrument dfC5 "a.c" = some instC5
    ∧ instC5.tradingsymbol_norm_lc = some "abc"
    ∧ ¬ ("a.c".data <:+: "abc".data) :=
  ⟨rfl, rfl, by decide⟩

/-- With no identifier-alias column, the alias scan finds nothing. -/
theorem secColOf_eq_none {cols : List String}
    (h : ∀ c ∈ cols, pyLower c ∉ secCandidates) : secColOf cols = none := by
  unfold secColOf colKey
  rw [List.findSome?_eq_none_iff]
  intro cand hcand
  rw [List.find?_eq_none]
  intro c hc hbeq
  have hce : pyLower c = cand := beq_iff_eq.mp hbeq
  exact h c (List.mem_reverse.mp hc) (hce ▸ hcand)

/-- A resolved instrument is a row of the dataset. -/
theorem find_instrument_mem {df : List Instrument} {query : String} {r : Instrument}
    (h : find_instrument df query = some r) : r ∈ df := by
  simp only [find_instrument] at h
  by_cases hq : pyLower (pyStrip query) = ""
  · rw [if_pos hq] at h
    cases h
  · rw [if_neg hq] at h
    cases hex : df.find? (fun x => x.tradingsymbol_norm_lc == some (pyLower (pyStrip query))) with
    | some r2 =>
      rw [hex] at h
      cases h
      exact List.mem_of_find?_eq_some hex
    | none =>
      rw [hex] at h
      exact List.mem_of_find?_eq_some h

/-- C8 (amended): when no column of the instrument list is an
identifier-column alias, every resolved instrument has an absent
identifier, and the order payload built for it carries the string
`"None"` — Python's `str(None)` rendering of the absent identifier, not
the empty string — rather than crashing. -/
theorem no_id_column_payload_identifier :
    ∀ f : RawFrame, f.cols ≠ [] →
      (∀ c ∈ f.cols, pyLower c ∉ secCandidates) →
      ∀ query r, find_instrument (download_instruments f) query = some r →
        r.securityId_norm = none
        ∧ ∀ entry ot qty sl tgt poll side,
            (mkPayload (startConfig r entry ot qty sl tgt poll) side).securityId
              = "None" := by
  intro f _ hno query r hfind
  have hmem : r ∈ download_instruments f := find_instrument_mem hfind
  obtain ⟨row, _, hr⟩ := List.mem_map.mp hmem
  have hsec : r.securityId_norm = none := by
    rw [← hr]
    simp [normRow, secColOf_eq_none hno]
  refine ⟨hsec, fun entry ot qty sl tgt poll side => ?_⟩
  simp [mkPayload, startConfig, pyStrOfOpt, hsec]

/-- Witness for C8's amended theorem on a one-column, one-row CSV. -/
theorem no_id_column_payload_identifier_witness :
    (frameC8.cols ≠ []
     ∧ (∀ c ∈ frameC8.cols, pyLower c ∉ secCandidates)
     ∧ find_instrument (download_instruments frameC8) "reliance" = some instC8)
    ∧ (instC8.securityId_norm = none
       ∧ (mkPayload (startConfig instC8 100 .MARKET 1 1 2 2) .BUY).securityId
           = "None") :=
  ⟨⟨by decide, by decide, rfl⟩,
   (no_id_column_payload_identifier frameC8 (by decide) (by decide) "reliance" instC8
      rfl).imp (fun h => h) (fun h => h 100 OrderType.MARKET 1 1 2 2 Side.BUY)⟩

/-- C8 counterexample: the payload identifier for an instrument with an
absent identifier is the four-character string `"None"`, not the empty
string the claim describes. -/
theorem payload_identifier_not_empty :
    download_instruments frameC8 = [instC8]
    ∧ instC8.securityId_norm = none
    ∧ (mkPayload (startConfig instC8 100 .MARKET 1 1 2 2) .BUY).securityId = "None"
    ∧ "None" ≠ "" :=
  ⟨rfl, rfl, rfl, by decide⟩

/-- The loop adds exactly one submission when it ends `SUBMITTED` and none
otherwise. -/
theorem monitorGo_submissions_length (tf : JValue → Option ℚ) (cfg : MonitorConfig)
    (quotes : ℕ → JValue) :
    ∀ fuel i e logs subs,
      ((monitorGo tf cfg quotes fuel i e logs subs).submissions).length
        = subs.length +
          (if (monitorGo tf cfg quotes fuel i e logs subs).terminal = .SUBMITTED
           then 1 else 0) := by
  intro fuel
  induction fuel with
  | zero =>
    intro i e logs subs
    simp [monitorGo]
  | succ f ih =>
    intro i e logs subs
    simp only [monitorGo]
    by_cases h : e < timeout_seconds
    · simp only [h, if_true]
      cases hs : stepOf tf cfg.entry_price (quotes i) with
      | retry ev => exact ih (i + 1) (e + cfg.poll_interval) (logs ++ [ev]) subs
      | trigger side p => simp
      | tickNoTrigger p =>
        exact ih (i + 1) (e + cfg.poll_interval) (logs ++ [.tick p]) subs
    · simp [h]

/-- Every submission the loop hands to `place_order` is the payload built
from the configuration and a triggered side. -/
theorem monitorGo_submissions_mem (tf : JValue → Option ℚ) (cfg : MonitorConfig)
    (quotes : ℕ → JValue) :
    ∀ fuel i e logs subs pl,
      pl ∈ (monitorGo tf cfg quotes fuel i e logs subs).submissions →
      pl ∈ subs ∨ ∃ side, pl = mkPayload cfg side := by
  intro fuel
  induction fuel with
  | zero =>
    intro i e logs subs pl h
    exact Or.inl h
  | succ f ih =>
    intro i e logs subs pl h
    simp only [monitorGo] at h
    by_cases he : e < timeout_seconds
    · simp only [he, if_true] at h
      cases hs : stepOf tf cfg.entry_price (quotes i) with
      | retry ev =>
        rw [hs] at h
        exact ih (i + 1) (e + cfg.poll_interval) (logs ++ [ev]) subs pl h
      | trigger side p =>
        rw [hs] at h
        rcases List.mem_append.mp h with h1 | h1
        · exact Or.inl h1
        · exact Or.inr ⟨side, by simpa using h1⟩
      | tickNoTrigger p =>
        rw [hs] at h
        exact ih (i + 1) (e + cfg.poll_interval) (logs ++ [.tick p]) subs pl h
    · simp only [he, if_false] at h
      exact Or.inl h

/-- If every poll fails, the loop never submits: it runs the clock past
the 6-hour budget and ends timed out with the submissions untouched. -/
theorem monitorGo_all_retry (tf : JValue → Option ℚ) (cfg : MonitorConfig)
    (quotes : ℕ → JValue)
    (hall : ∀ j, isRetry (stepOf tf cfg.entry_price (quotes j)) = true) :
    ∀ fuel i e logs subs,
      timeout_seconds ≤ e + fuel * cfg.poll_interval →
      (monitorGo tf cfg quotes fuel i e logs subs).terminal = .TIMED_OUT
      ∧ (monitorGo tf cfg quotes fuel i e logs subs).submissions = subs
      ∧ timeout_seconds ≤ (monitorGo tf cfg quotes fuel i e logs subs).finalElapsed := by
  intro fuel
  induction fuel with
  | zero =>
    intro i e logs subs hle
    simp only [Nat.zero_mul, Nat.add_zero] at hle
    exact ⟨rfl, rfl, hle⟩
  | succ f ih =>
    intro i e logs subs hle
    simp only [monitorGo]
    by_cases he : e < timeout_seconds
    · simp only [he, if_true]
      cases hs : stepOf tf cfg.entry_price (quotes i) with
      | retry ev =>
        apply ih
        rw [Nat.succ_mul] at hle
        omega
      | trigger side p =>
        have hj := hall i
        rw [hs] at hj
        exact absurd hj (by simp [isRetry])
      | tickNoTrigger p =>
        have hj := hall i
        rw [hs] at hj
        exact absurd hj (by simp [isRetry])
    · simp only [he, if_false]
      exact ⟨trivial, trivial, Nat.le_of_not_lt he⟩

/-- Spending one more unit of fuel than the remaining budget requires
changes nothing: with `poll_interval ≥ 1`, starting the loop at fuel
`timeout_seconds` makes the fuel bound inert, so `monitor_flow` is exactly
the source's while loop. -/
theorem monitorGo_fuel_succ (tf : JValue → Option ℚ) (cfg : MonitorConfig)
    (quotes : ℕ → JValue) :
    ∀ fuel i e logs subs,
      timeout_seconds ≤ e + fuel * cfg.poll_interval →
      monitorGo tf cfg quotes (fuel + 1) i e logs subs
        = monitorGo tf cfg quotes fuel i e logs subs := by
  intro fuel
  induction fuel with
  | zero =>
    intro i e logs subs hle
    simp only [Nat.zero_mul, Nat.add_zero] at hle
    have hnl : ¬ e < timeout_seconds := Nat.not_lt.mpr hle
    simp [monitorGo, hnl]
  | succ f ih =>
    intro i e logs subs hle
    by_cases he : e < timeout_seconds
    · simp only [monitorGo, he, if_true]
      cases hs : stepOf tf cfg.entry_price (quotes i) with
      | retry ev =>
        apply ih
        rw [Nat.succ_mul] at hle
        omega
      | trigger side p => rfl
      | tickNoTrigger p =>
        apply ih
        rw [Nat.succ_mul] at hle
        omega
    · simp [monitorGo, he]

/-- C2: a monitor run creates at most one order — exactly one when and
only when it ends `SUBMITTED` — and on the first qualifying tick the loop
submits exactly one order and exits at once: the next quote index is
`i + 1` (later ticks are never observed) and the elapsed clock is
unchanged (no further poll-interval sleep). -/
theorem monitor_flow_at_most_one_order :
    ∀ (toFloat : JValue → Option ℚ) (cfg : MonitorConfig) (quotes : ℕ → JValue),
      ((monitor_flow toFloat cfg quotes).submissions.length ≤ 1
       ∧ ((monitor_flow toFloat cfg quotes).terminal = .SUBMITTED
           ↔ (monitor_flow toFloat cfg quotes).submissions.length = 1))
      ∧ (∀ fuel i e logs subs side p,
          e < timeout_seconds →
          stepOf toFloat cfg.entry_price (quotes i) = .trigger side p →
          monitorGo toFloat cfg quotes (fuel + 1) i e logs subs =
            ⟨.SUBMITTED,
             logs ++ [.tick p, .entryTouched side, .placeOrderResp,
                      .stoppedAfterPlacing side],
             subs ++ [mkPayload cfg side], i + 1, e⟩) := by
  intro tf cfg quotes
  constructor
  · have hlen := monitorGo_submissions_length tf cfg quotes timeout_seconds 0 0 [] []
    constructor
    · rw [show (monitor_flow tf cfg quotes).submissions.length
            = ((monitorGo tf cfg quotes timeout_seconds 0 0 [] []).submissions).length
          from rfl, hlen]
      split <;> simp
    · constructor
      · intro hterm
        have hterm2 : (monitorGo tf cfg quotes timeout_seconds 0 0 [] []).terminal
            = Terminal.SUBMITTED := hterm
        rw [show (monitor_flow tf cfg quotes).submissions.length
              = ((monitorGo tf cfg quotes timeout_seconds 0 0 [] []).submissions).length
            from rfl, hlen, if_pos hterm2]
        rfl
      · intro hone
        by_contra hterm
        have hterm2 : ¬ (monitorGo tf cfg quotes timeout_seconds 0 0 [] []).terminal
            = Terminal.SUBMITTED := hterm
        rw [show (monitor_flow tf cfg quotes).submissions.length
              = ((monitorGo tf cfg quotes timeout_seconds 0 0 [] []).submissions).length
            from rfl, hlen, if_neg hterm2] at hone
        simp at hone
  · intro fuel i e logs subs side p he hs
    simp only [monitorGo, he, if_true, hs]

/-- Witness for C2: with entry 100 every tick of 101 triggers; the loop
submits once and stops without reading a second quote or sleeping. -/
theorem monitor_flow_at_most_one_order_witness :
    ((0 : ℕ) < timeout_seconds
     ∧ stepOf pyFloat cfgC2.entry_price (quotesC2 0) = .trigger .SELL 101)
    ∧ monitorGo pyFloat cfgC2 quotesC2 1 0 0 [] [] =
        ⟨.SUBMITTED,
         [] ++ [.tick 101, .entryTouched .SELL, .placeOrderResp,
                .stoppedAfterPlacing .SELL],
         [] ++ [mkPayload cfgC2 .SELL], 0 + 1, 0⟩ :=
  ⟨⟨by decide, rfl⟩,
   (monitor_flow_at_most_one_order pyFloat cfgC2 quotesC2).2 0 0 0 [] [] .SELL 101
     (by decide) rfl⟩

/-- C3: the run records the 6-hour budget and checks it each iteration;
when no poll ever qualifies (every poll takes the failure path, however
many failures occur), the run ends `TIMED_OUT` with zero submissions and
the clock at or past the budget. -/
theorem monitor_flow_timeout_no_qualifying_tick :
    ∀ (toFloat : JValue → Option ℚ) (cfg : MonitorConfig) (quotes : ℕ → JValue),
      0 < cfg.poll_interval →
      (∀ j, isRetry (stepOf toFloat cfg.entry_price (quotes j)) = true) →
      (monitor_flow toFloat cfg quotes).terminal = .TIMED_OUT
      ∧ (monitor_flow toFloat cfg quotes).submissions = []
      ∧ timeout_seconds ≤ (monitor_flow toFloat cfg quotes).finalElapsed := by
  intro tf cfg quotes hpos hall
  have hmul : timeout_seconds * 1 ≤ timeout_seconds * cfg.poll_interval :=
    Nat.mul_le_mul_left timeout_seconds hpos
  exact monitorGo_all_retry tf cfg quotes hall timeout_seconds 0 0 [] [] (by omega)

/-- Witness for C3: every quote body is `null`, so every poll fails; the
run times out with no submission. -/
theorem monitor_flow_timeout_no_qualifying_tick_witness :
    (0 < cfgC3.poll_interval
     ∧ (∀ j : ℕ, isRetry (stepOf pyFloat cfgC3.entry_price (quotesC3 j)) = true))
    ∧ ((monitor_flow pyFloat cfgC3 quotesC3).terminal = .TIMED_OUT
       ∧ (monitor_flow pyFloat cfgC3 quotesC3).submissions = []
       ∧ timeout_seconds ≤ (monitor_flow pyFloat cfgC3 quotesC3).finalElapsed) :=
  ⟨⟨by decide, fun _ => rfl⟩,
   monitor_flow_timeout_no_qualifying_tick pyFloat cfgC3 quotesC3 (by decide)
     (fun _ => rfl)⟩

/-- C7: every payload a run submits carries a price field exactly when the
configured order type is LIMIT — and then it equals the configured entry
price — while stop-loss and target ride along as percentage fields in
every payload. -/
theorem submitted_payload_fields :
    ∀ (toFloat : JValue → Option ℚ) (cfg : MonitorConfig) (quotes : ℕ → JValue) pl,
      pl ∈ (monitor_flow toFloat cfg quotes).submissions →
      ((pl.price ≠ none ↔ cfg.order_type = .LIMIT)
       ∧ pl.price = (if cfg.order_type = .LIMIT then some cfg.entry_price else none)
       ∧ pl.stopLossPercent = cfg.sl_pct
       ∧ pl.targetPercent = cfg.tgt_pct) := by
  intro tf cfg quotes pl hmem
  rcases monitorGo_submissions_mem tf cfg quotes timeout_seconds 0 0 [] [] pl hmem
    with h | ⟨side, rfl⟩
  · exact absurd h (List.not_mem_nil pl)
  · refine ⟨?_, ?_, rfl, rfl⟩
    · cases ht : cfg.order_type <;> simp [mkPayload, ht]
    · cases ht : cfg.order_type <;> simp [mkPayload, ht]

/-- Witness for C7 on a LIMIT run triggered through the `'data'`-wrapped
`'last'` alias. -/
theorem submitted_payload_fields_witness :
    mkPayload cfgC7 .SELL ∈ (monitor_flow pyFloat cfgC7 quotesC7).submissions
    ∧ (((mkPayload cfgC7 .SELL).price ≠ none ↔ cfgC7.order_type = .LIMIT)
       ∧ (mkPayload cfgC7 .SELL).price
           = (if cfgC7.order_type = .LIMIT then some cfgC7.entry_price else none)
       ∧ (mkPayload cfgC7 .SELL).stopLossPercent = cfgC7.sl_pct
       ∧ (mkPayload cfgC7 .SELL).targetPercent = cfgC7.tgt_pct) :=
  have hmem : mkPayload cfgC7 .SELL ∈ (monitor_flow pyFloat cfgC7 quotesC7).submissions := by
    rw [(rfl :
      (monitor_flow pyFloat cfgC7 quotesC7).submissions = [mkPayload cfgC7 .SELL])]
    exact List.mem_singleton.mpr rfl
  ⟨hmem, submitted_payload_fields pyFloat cfgC7 quotesC7 (mkPayload cfgC7 .SELL) hmem⟩

/-- C9: a failed poll — structured failure, missing or non-numeric
price — logs exactly its failure event, sleeps one poll interval, and
continues with no submission; and the spec's scenario holds: two fetch
failures then a quote of 100.00 against entry 100.00 give two failure log
lines followed by exactly one SELL submission. -/
theorem failed_poll_logs_sleeps_continues :
    (∀ (toFloat : JValue → Option ℚ) (cfg : MonitorConfig) (quotes : ℕ → JValue)
        fuel i e logs subs ev,
      e < timeout_seconds →
      stepOf toFloat cfg.entry_price (quotes i) = .retry ev →
      monitorGo toFloat cfg quotes (fuel + 1) i e logs subs =
        monitorGo toFloat cfg quotes fuel (i + 1) (e + cfg.poll_interval)
          (logs ++ [ev]) subs)
    ∧ monitor_flow pyFloat cfgC9 quotesC9 =
        ⟨.SUBMITTED,
         [.quoteFetchError (.str "boom"), .quoteFetchError (.str "boom"), .tick 100,
          .entryTouched .SELL, .placeOrderResp, .stoppedAfterPlacing .SELL],
         [mkPayload cfgC9 .SELL], 3, 14400⟩ := by
  constructor
  · intro tf cfg quotes fuel i e logs subs ev he hs
    simp only [monitorGo, he, if_true, hs]
  · rfl

/-- Witness for C9's failed-poll step at the first fetch failure of the
scenario stream. -/
theorem failed_poll_logs_sleeps_continues_witness :
    ((0 : ℕ) < timeout_seconds
     ∧ stepOf pyFloat cfgC9.entry_price (quotesC9 0)
         = .retry (.quoteFetchError (.str "boom")))
    ∧ monitorGo pyFloat cfgC9 quotesC9 1 0 0 [] [] =
        monitorGo pyFloat cfgC9 quotesC9 0 (0 + 1) (0 + cfgC9.poll_interval)
          ([] ++ [.quoteFetchError (.str "boom")]) [] :=
  ⟨⟨by decide, rfl⟩,
   failed_poll_logs_sleeps_continues.1 pyFloat cfgC9 quotesC9 0 0 0 [] []
     (.quoteFetchError (.str "boom")) (by decide) rfl⟩
